import Mathlib

/-!
Verification of the Interactive_Maps repository (flight_time.py and
get_map.py) against its natural-language specification.

The Python source is shallowly embedded: image-drawing side effects become
explicit lists of draw operations, the OpenCV integer point-polygon test
becomes an exact even-odd/boundary test on integer coordinates, the numpy
homogeneous point transform becomes exact rational arithmetic with
truncation toward zero, and the per-frame main loops become pure step
functions over explicit state.
-/

namespace InteractiveMaps

/-- Integer 2D point, the coordinate type of map-space polygons and warped
finger locations (flight_time.py works on integer pixel coordinates). -/
structure Pt where
  x : Int
  y : Int
deriving DecidableEq, Repr

/-- Consecutive edges of a closed polygon, wrapping around from the last
vertex back to the first (cv2 treats the vertex list as a closed contour). -/
def polyEdges (poly : List Pt) : List (Pt × Pt) :=
  poly.zip (poly.rotate 1)

/-- Exact test that point p lies on the closed segment from a to b:
the cross product of (b - a) and (p - a) vanishes and p lies in the
bounding box of the segment. -/
def onSegment (a b p : Pt) : Bool :=
  decide ((b.x - a.x) * (p.y - a.y) = (b.y - a.y) * (p.x - a.x)) &&
  decide (min a.x b.x ≤ p.x ∧ p.x ≤ max a.x b.x ∧
          min a.y b.y ≤ p.y ∧ p.y ≤ max a.y b.y)

/-- p lies exactly on the boundary of the closed polygon. -/
def onBoundary (poly : List Pt) (p : Pt) : Bool :=
  (polyEdges poly).any fun e => onSegment e.1 e.2 p

/-- Half-open crossing test for the even-odd rule: the edge from v0 to v1
crosses the horizontal ray from p toward +x.  The intersection abscissa is
strictly to the right of p exactly when the cross product
n = (v1 - v0) x (p - v0) has the sign of (v1.y - v0.y). -/
def crossesRay (v0 v1 p : Pt) : Bool :=
  let n := (v1.x - v0.x) * (p.y - v0.y) - (v1.y - v0.y) * (p.x - v0.x)
  (decide (v0.y ≤ p.y ∧ p.y < v1.y) && decide (0 < n)) ||
  (decide (v1.y ≤ p.y ∧ p.y < v0.y) && decide (n < 0))

/-- Even-odd (ray crossing parity) interior test. -/
def insideEvenOdd (poly : List Pt) (p : Pt) : Bool :=
  ((polyEdges poly).countP fun e => crossesRay e.1 e.2 p) % 2 == 1

/-- Exact integer model of cv2.pointPolygonTest(contour, p, False):
returns 0 when p is exactly on the polygon boundary, +1 when it is inside
by the even-odd rule, and -1 otherwise (OpenCV's pure-integer branch is
exact: boundary points give 0, other points give the crossing parity). -/
def pointPolygonTest (poly : List Pt) (p : Pt) : Int :=
  if onBoundary poly p then 0
  else if insideEvenOdd poly p then 1
  else -1

/-- The hit condition used at flight_time.py:211-212 and 229-230:
`result = cv2.pointPolygonTest(...); if result >= 0:`. -/
def regionHit (poly : List Pt) (p : Pt) : Bool :=
  decide (pointPolygonTest poly p ≥ 0)

/-- Names of all regions whose polygon contains the query point, in load
order — the accumulation performed by the `for polygon, name in polygons`
loops of create_overlay_image (flight_time.py:209-217 and 227-234), which
never break out early. -/
def regionQuery : List (List Pt × String) → Pt → List String
  | [], _ => []
  | r :: rest, p =>
      if regionHit r.1 p then r.2 :: regionQuery rest p
      else regionQuery rest p

/-- The static flight-time table (flight_time.py:73-78), each entry a
triple (origin, destination, duration label). -/
def flight_time_list : List (String × String × String) :=
  [("USA", "India", "14 hours"),
   ("USA", "China", "15 hours"),
   ("Russia", "India", "6 hours"),
   ("Canada", "India", "17 hours"),
   ("Saudi Arabia", "USA", "14 hours")]

/-- Python's `s in flight_time` membership test on a three-element table
entry (flight_time.py:221): s may match the origin, the destination, or
the duration field. -/
def memEntry (s : String) (e : String × String × String) : Bool :=
  s == e.1 || s == e.2.1 || s == e.2.2

/-- All table entries matched by the lookup condition
`check[0] in flight_time and check[1] in flight_time`
(flight_time.py:220-221); the loop renders text for every one of them. -/
def matchingFlights (a b : String) : List (String × String × String) :=
  flight_time_list.filter fun e => memEntry a e && memEntry b e

/-- One drawing side effect on the overlay canvas.  The canvas starts as a
zero-filled image (flight_time.py:249); we model its contents as the list
of drawing operations applied to it, in order ([] = still blank). -/
inductive DrawOp where
  | polyline (poly : List Pt)
  | fillPoly (poly : List Pt)
  | textRect (s : String) (pos : Pt) (scale : Nat)
  | line (a b : Pt)
deriving DecidableEq, Repr

/-- Draw operations emitted for one query point by the inner polygon loop
of the two-point branch (flight_time.py:209-217): for every hit, outline,
fill, and a name label anchored at the polygon's first vertex. -/
def hitOps (polygons : List (List Pt × String)) (p : Pt) : List DrawOp :=
  polygons.flatMap fun r =>
    if regionHit r.1 p then
      [.polyline r.1, .fillPoly r.1, .textRect r.2 (r.1.headD ⟨0, 0⟩) 1]
    else []

/-- Text operations emitted by the flight-time loop (flight_time.py:220-224)
for lookup keys a and b: for EVERY entry containing both keys (the loop has
no break), the label "destination to origin" at (0,100) and the duration at
(0,200). -/
def flightOps (a b : String) : List DrawOp :=
  flight_time_list.flatMap fun e =>
    if memEntry a e && memEntry b e then
      [.textRect (e.2.1 ++ " to " ++ e.1) ⟨0, 100⟩ 8, .textRect e.2.2 ⟨0, 200⟩ 8]
    else []

/-- Two-point branch of create_overlay_image (flight_time.py:206-224):
accumulates hit draws and the `check` name list over both points; then,
exactly when `len(check) == 2`, draws the connecting line and runs the
flight-time loop on check[0] and check[1].  Returns (draw ops, check). -/
def twoPointOverlay (polygons : List (List Pt × String)) (p1 p2 : Pt) :
    List DrawOp × List String :=
  let check := regionQuery polygons p1 ++ regionQuery polygons p2
  let ops := hitOps polygons p1 ++ hitOps polygons p2
  if check.length = 2 then
    (ops ++ DrawOp.line p1 p2 :: flightOps (check.headD "") (check.getD 1 ""), check)
  else (ops, check)

/-- Single-point branch of create_overlay_image (flight_time.py:225-234):
for every hit, outline, fill, per-polygon label, and additionally the
headline name at the fixed anchor (0,100) with scale 8. -/
def singlePointOverlay (polygons : List (List Pt × String)) (p : Pt) : List DrawOp :=
  polygons.flatMap fun r =>
    if regionHit r.1 p then
      [.polyline r.1, .fillPoly r.1, .textRect r.2 (r.1.headD ⟨0, 0⟩) 1,
       .textRect r.2 ⟨0, 100⟩ 8]
    else []

/-- create_overlay_image (flight_time.py:193-236).  The Python dispatch
`isinstance(warped_point, list)` becomes a sum type: inr carries the
two-hand point pair, inl the single-hand point.  Returns the canvas draw
operations together with the `check` list (empty in the single branch,
where no such list is kept). -/
def create_overlay_image (polygons : List (List Pt × String))
    (warped_point : Pt ⊕ (Pt × Pt)) : List DrawOp × List String :=
  match warped_point with
  | .inr (p1, p2) => twoPointOverlay polygons p1 p2
  | .inl p => (singlePointOverlay polygons p, [])

/-- A 3x3 perspective matrix over exact rationals (numpy float32 arithmetic
is modelled exactly). -/
structure Mat3 where
  a00 : ℚ
  a01 : ℚ
  a02 : ℚ
  a10 : ℚ
  a11 : ℚ
  a12 : ℚ
  a20 : ℚ
  a21 : ℚ
  a22 : ℚ
deriving DecidableEq, Repr

/-- First homogeneous component of m * (x, y, 1). -/
def homogX (m : Mat3) (p : ℚ × ℚ) : ℚ := m.a00 * p.1 + m.a01 * p.2 + m.a02

/-- Second homogeneous component of m * (x, y, 1). -/
def homogY (m : Mat3) (p : ℚ × ℚ) : ℚ := m.a10 * p.1 + m.a11 * p.2 + m.a12

/-- Third homogeneous component of m * (x, y, 1). -/
def homogW (m : Mat3) (p : ℚ × ℚ) : ℚ := m.a20 * p.1 + m.a21 * p.2 + m.a22

/-- Truncation toward zero of a rational, the behaviour of Python's int()
applied to a float quotient (flight_time.py:120). -/
def truncQ (q : ℚ) : ℤ := q.num.tdiv q.den

/-- warp_single_point (flight_time.py:101-122): lift the point to
homogeneous coordinates, multiply by the matrix, divide the first two
components by the third, truncate to integers.  A zero homogeneous w
(division by zero, then int() of the resulting non-finite value) is a
failure, modelled as none. -/
def warp_single_point (point : ℚ × ℚ) (matrix : Mat3) : Option (ℤ × ℤ) :=
  let w := homogW matrix point
  if w = 0 then none
  else some (truncQ (homogX matrix point / w), truncQ (homogY matrix point / w))

/-- Result of get_finger_location (flight_time.py:156-190): None when no
hand is detected, one warped point for one hand, a pair for two hands;
crash when warp_single_point fails on a detected fingertip. -/
inductive GestureOut where
  | crash
  | noHands
  | one (p : ℤ × ℤ)
  | two (p q : ℤ × ℤ)
deriving DecidableEq, Repr

/-- get_finger_location (flight_time.py:156-190).  The external hand
detector's output is abstracted to the list of index-fingertip camera
coordinates it reports (0, 1 or 2 hands); each fingertip is warped by
warp_single_point with the current matrix. -/
def get_finger_location (matrix : Mat3) (hands : List (ℚ × ℚ)) : GestureOut :=
  match hands with
  | [] => .noHands
  | [h1] =>
    match warp_single_point h1 matrix with
    | none => .crash
    | some wp => .one wp
  | h1 :: h2 :: _ =>
    match warp_single_point h1 matrix, warp_single_point h2 matrix with
    | some wp1, some wp2 => .two wp1 wp2
    | _, _ => .crash

/-- An 8-bit RGB pixel, each channel a natural number (valid frames keep
every channel ≤ 255). -/
def Pix : Type := ℕ × ℕ × ℕ

/-- An image as a function from coordinates to pixels. -/
def Frame : Type := ℕ × ℕ → Pix

/-- One channel of cv2.addWeighted(img, 1, overlay, 0.65, 0)
(flight_time.py:151): camera value at weight 1 plus overlay value at
weight 0.65 = 13/20, rounded to nearest and saturated at 255.  In exact
arithmetic round(c + 13*o/20 + 1/2) = (20*c + 13*o + 10) / 20 with natural
division. -/
def addWeightedChannel (c o : ℕ) : ℕ :=
  min 255 ((20 * c + 13 * o + 10) / 20)

/-- cv2.addWeighted applied channelwise to one pixel. -/
def addWeightedPixel (c o : Pix) : Pix :=
  (addWeightedChannel c.1 o.1, addWeightedChannel c.2.1 o.2.1,
   addWeightedChannel c.2.2 o.2.2)

/-- The blending half of inverse_warp_image (flight_time.py:125-153):
given the camera frame and the overlay already inverse-warped into camera
space (the cv2.warpPerspective resampling is an external collaborator and
is taken as input here), blend them per pixel with addWeighted. -/
def inverse_warp_image (img overlayWarped : Frame) : Frame :=
  fun pos => addWeightedPixel (img pos) (overlayWarped pos)

/-- One iteration of the flight_time.py main loop body after frame capture
(flight_time.py:239-260), parametrised by the external inverse-warp
resampler that turns canvas draw operations into a camera-space overlay
frame.  Returns the displayed frame and the overlay canvas contents; none
models a crash inside warp_single_point.  With no gesture the overlay
stays blank ([]) and the displayed frame is img unchanged
(imgOutput = img.copy(), flight_time.py:243, 251-253). -/
def frame_step (warpPersp : List DrawOp → Frame) (matrix : Mat3)
    (polygons : List (List Pt × String)) (hands : List (ℚ × ℚ))
    (img : Frame) : Option (Frame × List DrawOp) :=
  match get_finger_location matrix hands with
  | .crash => none
  | .noHands => some (img, [])
  | .one wp =>
      let r := create_overlay_image polygons (.inl ⟨wp.1, wp.2⟩)
      some (inverse_warp_image img (warpPersp r.1), r.1)
  | .two wp1 wp2 =>
      let r := create_overlay_image polygons (.inr (⟨wp1.1, wp1.2⟩, ⟨wp2.1, wp2.2⟩))
      some (inverse_warp_image img (warpPersp r.1), r.1)

/-- Which per-frame actions one iteration of the flight_time.py main loop
(flight_time.py:239-262) performs.  The loop body never inspects the
`success` flag returned by cap.read(). -/
structure FlightIter where
  warpApplied : Bool
  detectionApplied : Bool
  displayed : Bool
  loggedFailure : Bool
  terminated : Bool
deriving DecidableEq, Repr

/-- One iteration of the flight_time.py main loop as a function of the
capture success flag: warp_image, hand detection and display are applied
unconditionally; the flag is never read, nothing is logged, and the
`while True` loop has no break. -/
def flight_time_iteration (success : Bool) : FlightIter :=
  { warpApplied := true
    detectionApplied := true
    displayed := true
    loggedFailure := false
    terminated := false }

/-- Observable events of one get_map.py main-loop iteration, in program
order. -/
inductive MapEvent where
  | savePoints
  | warpFrame
  | showWarped
  | drawCircles
  | logFailure
  | breakLoop
  | showOriginal
  | pollKey
deriving DecidableEq, Repr

/-- One iteration of the get_map.py main loop (get_map.py:57-83) as the
ordered list of events it performs, as a function of the capture success
flag and the click counter: when counter == 4 the points are saved and the
frame warped and shown (lines 60-68); the corner circles are drawn
(lines 71-72); only then is `success` checked (lines 74-76), logging and
breaking on failure; otherwise the frame is shown and keys polled. -/
def get_map_iteration (success : Bool) (counter : ℕ) : List MapEvent :=
  (if counter == 4 then [.savePoints, .warpFrame, .showWarped] else []) ++
  [.drawCircles] ++
  (if success then [.showOriginal, .pollKey] else [.logFailure, .breakLoop])

/-- mousePoints (get_map.py:18-36): on a left-button-down event the click
is stored at index `counter` of the fixed 4-slot numpy array and the
counter incremented.  Writing at counter ≥ 4 raises IndexError before the
increment — modelled as none with no state change. -/
def mousePoints (lButtonDown : Bool) (x y : ℤ) (counter : ℕ)
    (points : Fin 4 → ℤ × ℤ) : Option (ℕ × (Fin 4 → ℤ × ℤ)) :=
  if lButtonDown then
    if h : counter < 4 then
      some (counter + 1, Function.update points ⟨counter, h⟩ (x, y))
    else none
  else some (counter, points)

/-! Concrete fixtures used by the witnesses and counterexamples. -/

/-- The spec's test square with corners (0,0),(10,0),(10,10),(0,10). -/
def square10 : List Pt := [⟨0, 0⟩, ⟨10, 0⟩, ⟨10, 10⟩, ⟨0, 10⟩]

/-- A square overlapping square10 (both contain (5,5)). -/
def squareB : List Pt := [⟨3, 3⟩, ⟨13, 3⟩, ⟨13, 13⟩, ⟨3, 13⟩]

/-- A square far from the others, containing (100,100). -/
def squareC : List Pt := [⟨95, 95⟩, ⟨105, 95⟩, ⟨105, 105⟩, ⟨95, 105⟩]

/-- Two overlapping named regions. -/
def overlapPolys : List (List Pt × String) := [(square10, "A"), (squareB, "B")]

/-- Two overlapping regions plus a disjoint third. -/
def threePolys : List (List Pt × String) :=
  [(square10, "A"), (squareB, "B"), (squareC, "C")]

/-- Two disjoint named regions. -/
def twoPolysAC : List (List Pt × String) := [(square10, "A"), (squareC, "C")]

/-- A single named region. -/
def onePolyUSA : List (List Pt × String) := [(square10, "USA")]

/-- A sample perspective matrix with homogeneous scale 2. -/
def m0 : Mat3 := ⟨1, 0, 0, 0, 1, 0, 0, 0, 2⟩

/-- A constant camera frame. -/
def camFrame : Frame := fun _ => (10, 20, 30)

/-- An all-zero (blank) overlay frame. -/
def zeroFrame : Frame := fun _ => (0, 0, 0)

/-- An all-zero click-point array. -/
def pts0 : Fin 4 → ℤ × ℤ := fun _ => (0, 0)

/-- Every channel of the pixel is a valid 8-bit value. -/
def validPix (p : Pix) : Prop := p.1 ≤ 255 ∧ p.2.1 ≤ 255 ∧ p.2.2 ≤ 255

/-- Componentwise order on pixels. -/
def pixLE (p q : Pix) : Prop := p.1 ≤ q.1 ∧ p.2.1 ≤ q.2.1 ∧ p.2.2 ≤ q.2.2

/-! The claims. -/

/-- Claim C1: for every stored region polygon and query point, the
containment test used by create_overlay_image reports a hit exactly when
the point is inside the polygon (even-odd rule) or exactly on its
boundary; for the square (0,0),(10,0),(10,10),(0,10): (5,5) hits, the
edge point (10,5) hits, (11,5) does not. -/
theorem c1_region_hit_boundary_inclusive :
    (∀ (poly : List Pt) (p : Pt),
      regionHit poly p = (insideEvenOdd poly p || onBoundary poly p)) ∧
    regionHit square10 ⟨5, 5⟩ = true ∧
    regionHit square10 ⟨10, 5⟩ = true ∧
    regionHit square10 ⟨11, 5⟩ = false := by
  refine ⟨fun poly p => ?_, by decide, by decide, by decide⟩
  by_cases hb : onBoundary poly p <;> by_cases hi : insideEvenOdd poly p <;>
    simp [regionHit, pointPolygonTest, hb, hi]

/-- Claim C3: warp_single_point applies the matrix to (x, y, 1), divides
the first two homogeneous components by the third, and truncates each
quotient toward zero (floor for nonnegative quotients, ceiling for
nonpositive ones — truncation, not rounding); it fails when the
homogeneous w component is zero. -/
theorem c3_warp_single_point_spec :
    (∀ (p : ℚ × ℚ) (m : Mat3), homogW m p = 0 → warp_single_point p m = none) ∧
    (∀ (p : ℚ × ℚ) (m : Mat3), homogW m p ≠ 0 →
      warp_single_point p m =
        some (truncQ (homogX m p / homogW m p), truncQ (homogY m p / homogW m p))) ∧
    (∀ q : ℚ, 0 ≤ q → truncQ q = ⌊q⌋) ∧
    (∀ q : ℚ, q ≤ 0 → truncQ q = ⌈q⌉) := by
  refine ⟨fun p m h => by simp [warp_single_point, h],
         fun p m h => by simp [warp_single_point, h],
         fun q hq => ?_, fun q hq => ?_⟩
  · simp only [truncQ]
    rw [Int.tdiv_eq_ediv (Rat.num_nonneg.mpr hq) (Int.natCast_nonneg _), Rat.floor_def]
  · have hn : q.num ≤ 0 := by
      have h1 : (0 ≤ (-q).num) ↔ (0 ≤ -q) := Rat.num_nonneg
      rw [Rat.num_neg_eq_neg_num] at h1
      have h2 : 0 ≤ -q.num := h1.mpr (neg_nonneg.mpr hq)
      omega
    have hfl : ⌊-q⌋ = -q.num / (q.den : ℤ) := by
      rw [Rat.floor_def, Rat.num_neg_eq_neg_num, Rat.den_neg_eq_den]
    simp only [truncQ]
    have hstep : q.num.tdiv q.den = -((-q.num).tdiv q.den) := by
      rw [Int.neg_tdiv, neg_neg]
    rw [hstep, Int.tdiv_eq_ediv (by omega) (Int.natCast_nonneg _), ← hfl,
      Int.floor_neg, neg_neg]

/-- Witness for C3 at the matrix diag(1,1,2) and point (3,5): w = 2 is
nonzero, and the warp truncates the quotients 3/2 and 5/2 to (1, 2). -/
theorem c3_witness :
    homogW m0 (3, 5) ≠ 0 ∧
    warp_single_point (3, 5) m0 =
      some (truncQ (homogX m0 (3, 5) / homogW m0 (3, 5)),
            truncQ (homogY m0 (3, 5) / homogW m0 (3, 5))) ∧
    warp_single_point (3, 5) m0 = some (1, 2) := by
  have hw : homogW m0 (3, 5) = 2 := by norm_num [homogW, m0]
  have hx : homogX m0 (3, 5) = 3 := by norm_num [homogX, m0]
  have hy : homogY m0 (3, 5) = 5 := by norm_num [homogY, m0]
  have hne : homogW m0 (3, 5) ≠ 0 := by rw [hw]; norm_num
  have happ := c3_warp_single_point_spec.2.1 (3, 5) m0 hne
  refine ⟨hne, happ, ?_⟩
  rw [happ, hx, hy, hw]
  have t1 : truncQ ((3 : ℚ) / 2) = 1 := by
    rw [c3_warp_single_point_spec.2.2.1 _ (by norm_num), Int.floor_eq_iff]
    norm_num
  have t2 : truncQ ((5 : ℚ) / 2) = 2 := by
    rw [c3_warp_single_point_spec.2.2.1 _ (by norm_num), Int.floor_eq_iff]
    norm_num
  rw [t1, t2]

/-- Claim C5: the travel-info lookup is symmetric in its two arguments and
succeeds exactly when some table entry contains both names; lookup of
USA/India in either order yields the entry ("USA","India","14 hours") and
USA/Canada finds nothing. -/
theorem c5_lookup_unordered :
    (∀ a b, matchingFlights a b = matchingFlights b a) ∧
    (∀ a b, matchingFlights a b ≠ [] ↔
      ∃ e ∈ flight_time_list, memEntry a e = true ∧ memEntry b e = true) ∧
    matchingFlights "USA" "India" = [("USA", "India", "14 hours")] ∧
    matchingFlights "India" "USA" = [("USA", "India", "14 hours")] ∧
    matchingFlights "USA" "Canada" = [] := by
  refine ⟨fun a b => List.filter_congr fun e _ => by rw [Bool.and_comm],
         fun a b => ?_, by decide, by decide, by decide⟩
  rw [Ne, matchingFlights, List.filter_eq_nil_iff]
  push_neg
  simp [Bool.and_eq_true]

/-- Witness for C5 at concrete names: symmetry instantiated at
India/Russia, and the success characterization instantiated at
USA/India. -/
theorem c5_witness :
    matchingFlights "India" "Russia" = matchingFlights "Russia" "India" ∧
    (matchingFlights "USA" "India" ≠ [] ↔
      ∃ e ∈ flight_time_list, memEntry "USA" e = true ∧ memEntry "India" e = true) :=
  ⟨c5_lookup_unordered.1 "India" "Russia", c5_lookup_unordered.2.1 "USA" "India"⟩

/-- Counterexample to C2 as stated: at point (5,5) the first hand resolves
to the two distinct overlapping regions A and B, and at (100,100) the
second hand resolves to the distinct region C — each point resolves to at
least one distinct matched region — yet because the accumulated match list
has length 3, not 2, create_overlay_image draws no connecting line. -/
theorem c2_counterexample :
    regionQuery threePolys ⟨5, 5⟩ = ["A", "B"] ∧
    regionQuery threePolys ⟨100, 100⟩ = ["C"] ∧
    (twoPointOverlay threePolys ⟨5, 5⟩ ⟨100, 100⟩).2 = ["A", "B", "C"] ∧
    DrawOp.line ⟨5, 5⟩ ⟨100, 100⟩ ∉ (twoPointOverlay threePolys ⟨5, 5⟩ ⟨100, 100⟩).1 := by
  refine ⟨by decide, by decide, by decide, by decide⟩

/-- Claim C2 (amended): in the two-point case the compositor draws the
connecting line and performs the travel-info lookup exactly when the
concatenated match list over both points has length exactly two, keying
the lookup on the first and second entries of that list (which need not
come from different points, nor be distinct). -/
theorem c2_amended_line_on_two_matches :
    ∀ (polygons : List (List Pt × String)) (p1 p2 : Pt),
    (twoPointOverlay polygons p1 p2).2 =
      regionQuery polygons p1 ++ regionQuery polygons p2 ∧
    ((twoPointOverlay polygons p1 p2).2.length = 2 →
      (twoPointOverlay polygons p1 p2).1 =
        hitOps polygons p1 ++ hitOps polygons p2 ++
          DrawOp.line p1 p2 ::
            flightOps ((twoPointOverlay polygons p1 p2).2.headD "")
              ((twoPointOverlay polygons p1 p2).2.getD 1 "")) ∧
    ((twoPointOverlay polygons p1 p2).2.length ≠ 2 →
      (twoPointOverlay polygons p1 p2).1 = hitOps polygons p1 ++ hitOps polygons p2) := by
  intro polygons p1 p2
  simp only [twoPointOverlay]
  by_cases h : (regionQuery polygons p1 ++ regionQuery polygons p2).length = 2
  · rw [if_pos h]
    exact ⟨rfl, fun _ => rfl, fun hc => absurd h hc⟩
  · rw [if_neg h]
    exact ⟨rfl, fun hc => absurd hc h, fun _ => rfl⟩

/-- Witness for C2 (amended) with regions A and C and one point in each:
the match list is ["A","C"] of length two, so the line and the (empty)
flight-time text block are emitted. -/
theorem c2_witness :
    (twoPointOverlay twoPolysAC ⟨5, 5⟩ ⟨100, 100⟩).1 =
      hitOps twoPolysAC ⟨5, 5⟩ ++ hitOps twoPolysAC ⟨100, 100⟩ ++
        DrawOp.line ⟨5, 5⟩ ⟨100, 100⟩ ::
          flightOps ((twoPointOverlay twoPolysAC ⟨5, 5⟩ ⟨100, 100⟩).2.headD "")
            ((twoPointOverlay twoPolysAC ⟨5, 5⟩ ⟨100, 100⟩).2.getD 1 "") :=
  (c2_amended_line_on_two_matches twoPolysAC ⟨5, 5⟩ ⟨100, 100⟩).2.1 (by decide)

/-- Claim C4: the region containment query returns all matching region
names in load order (the filter/map characterization), every stored region
that contains the point contributes its name, its fill highlight and its
label, and for two overlapping regions both names are returned. -/
theorem c4_all_matches_returned :
    (∀ (polygons : List (List Pt × String)) (p : Pt),
      regionQuery polygons p =
        (polygons.filter fun r => regionHit r.1 p).map Prod.snd) ∧
    (∀ (polygons : List (List Pt × String)) (p : Pt) (poly : List Pt) (name : String),
      (poly, name) ∈ polygons → regionHit poly p = true →
        name ∈ regionQuery polygons p ∧
        DrawOp.fillPoly poly ∈ singlePointOverlay polygons p ∧
        DrawOp.textRect name (poly.headD ⟨0, 0⟩) 1 ∈ singlePointOverlay polygons p) ∧
    regionQuery overlapPolys ⟨5, 5⟩ = ["A", "B"] := by
  have hfilter : ∀ (polygons : List (List Pt × String)) (p : Pt),
      regionQuery polygons p =
        (polygons.filter fun r => regionHit r.1 p).map Prod.snd := by
    intro polygons p
    induction polygons with
    | nil => rfl
    | cons r rest ih =>
      by_cases h : regionHit r.1 p <;> simp [regionQuery, List.filter_cons, h, ih]
  refine ⟨hfilter, fun polygons p poly name hmem hhit => ⟨?_, ?_, ?_⟩, by decide⟩
  · rw [hfilter]
    simp only [List.mem_map, List.mem_filter]
    exact ⟨(poly, name), ⟨hmem, hhit⟩, rfl⟩
  · simp only [singlePointOverlay, List.mem_flatMap]
    exact ⟨(poly, name), hmem, by simp [hhit]⟩
  · simp only [singlePointOverlay, List.mem_flatMap]
    exact ⟨(poly, name), hmem, by simp [hhit]⟩

/-- Witness for C4 at the overlapping regions A and B and point (5,5):
region A contains the point, so its name is returned and its fill and
label operations are drawn. -/
theorem c4_witness :
    "A" ∈ regionQuery overlapPolys ⟨5, 5⟩ ∧
    DrawOp.fillPoly square10 ∈ singlePointOverlay overlapPolys ⟨5, 5⟩ ∧
    DrawOp.textRect "A" (square10.headD ⟨0, 0⟩) 1 ∈ singlePointOverlay overlapPolys ⟨5, 5⟩ :=
  c4_all_matches_returned.2.1 overlapPolys ⟨5, 5⟩ square10 "A" (by decide) (by decide)

/-- Counterexample to C10 as stated: with the single region "USA"
containing both points (5,5) and (6,6), the match list is ["USA","USA"]
and the line is drawn, but the flight-time loop renders text from EVERY
table entry containing "USA" — here also from the second and fifth
entries — not only from the first such entry. -/
theorem c10_counterexample :
    (twoPointOverlay onePolyUSA ⟨5, 5⟩ ⟨6, 6⟩).2 = ["USA", "USA"] ∧
    DrawOp.line ⟨5, 5⟩ ⟨6, 6⟩ ∈ (twoPointOverlay onePolyUSA ⟨5, 5⟩ ⟨6, 6⟩).1 ∧
    DrawOp.textRect "China to USA" ⟨0, 100⟩ 8 ∈ (twoPointOverlay onePolyUSA ⟨5, 5⟩ ⟨6, 6⟩).1 ∧
    DrawOp.textRect "USA to Saudi Arabia" ⟨0, 100⟩ 8 ∈
      (twoPointOverlay onePolyUSA ⟨5, 5⟩ ⟨6, 6⟩).1 := by
  refine ⟨by decide, by decide, by decide, by decide⟩

/-- Claim C10 (amended): when both canonical points fall inside the same
single region, the match list holds that region's name twice, the
connecting line is drawn, and travel-info text is rendered from every
table entry that contains that one name, in table order (the loop never
breaks, so the last matching entry's text is drawn last); the pair lookup
degenerates to single-name membership with no distinctness check. -/
theorem c10_amended_same_region_pair :
    ∀ (polygons : List (List Pt × String)) (p1 p2 : Pt) (name : String),
    regionQuery polygons p1 = [name] → regionQuery polygons p2 = [name] →
    (twoPointOverlay polygons p1 p2).2 = [name, name] ∧
    (twoPointOverlay polygons p1 p2).1 =
      hitOps polygons p1 ++ hitOps polygons p2 ++
        DrawOp.line p1 p2 :: flightOps name name ∧
    flightOps name name = flight_time_list.flatMap (fun e =>
      if memEntry name e then
        [DrawOp.textRect (e.2.1 ++ " to " ++ e.1) ⟨0, 100⟩ 8,
         DrawOp.textRect e.2.2 ⟨0, 200⟩ 8]
      else []) := by
  intro polygons p1 p2 name h1 h2
  refine ⟨by simp [twoPointOverlay, h1, h2], by simp [twoPointOverlay, h1, h2], ?_⟩
  simp [flightOps, Bool.and_self]

/-- Witness for C10 (amended) at the single region "USA" and points (5,5)
and (6,6) inside it. -/
theorem c10_witness :
    (twoPointOverlay onePolyUSA ⟨5, 5⟩ ⟨6, 6⟩).2 = ["USA", "USA"] ∧
    (twoPointOverlay onePolyUSA ⟨5, 5⟩ ⟨6, 6⟩).1 =
      hitOps onePolyUSA ⟨5, 5⟩ ++ hitOps onePolyUSA ⟨6, 6⟩ ++
        DrawOp.line ⟨5, 5⟩ ⟨6, 6⟩ :: flightOps "USA" "USA" :=
  ⟨(c10_amended_same_region_pair onePolyUSA ⟨5, 5⟩ ⟨6, 6⟩ "USA" (by decide) (by decide)).1,
   (c10_amended_same_region_pair onePolyUSA ⟨5, 5⟩ ⟨6, 6⟩ "USA" (by decide) (by decide)).2.1⟩

/-- Claim C6: with zero detected hands the gesture resolver yields no
canonical points, the overlay canvas keeps its zero-initialized (blank)
state, and the displayed output frame is the camera frame unchanged, with
nothing composited onto it. -/
theorem c6_zero_hands_blank :
    ∀ (warpPersp : List DrawOp → Frame) (matrix : Mat3)
      (polygons : List (List Pt × String)) (img : Frame),
      get_finger_location matrix [] = GestureOut.noHands ∧
      frame_step warpPersp matrix polygons [] img = some (img, []) :=
  fun _ _ _ _ => ⟨rfl, rfl⟩

/-- Claim C7: compositing is the per-pixel blend
min 255 (round (camera + 0.65 * overlay)) on every channel — never a
replacement: a zero overlay pixel leaves a valid camera pixel unchanged,
and the result is always at least the camera pixel. -/
theorem c7_additive_blend :
    (∀ (img ov : Frame) (pos : ℕ × ℕ),
      inverse_warp_image img ov pos = addWeightedPixel (img pos) (ov pos)) ∧
    (∀ c : ℕ, c ≤ 255 → addWeightedChannel c 0 = c) ∧
    (∀ c o : ℕ, c ≤ 255 → c ≤ addWeightedChannel c o) ∧
    (∀ (img ov : Frame) (pos : ℕ × ℕ), validPix (img pos) → ov pos = (0, 0, 0) →
      inverse_warp_image img ov pos = img pos) ∧
    (∀ (img ov : Frame) (pos : ℕ × ℕ), validPix (img pos) →
      pixLE (img pos) (inverse_warp_image img ov pos)) := by
  have hzero : ∀ c : ℕ, c ≤ 255 → addWeightedChannel c 0 = c := by
    intro c hc
    simp only [addWeightedChannel]
    omega
  have hmono : ∀ c o : ℕ, c ≤ 255 → c ≤ addWeightedChannel c o := by
    intro c o hc
    simp only [addWeightedChannel]
    omega
  refine ⟨fun _ _ _ => rfl, hzero, hmono, ?_, ?_⟩
  · intro img ov pos hv hz
    obtain ⟨h1, h2, h3⟩ := hv
    show addWeightedPixel (img pos) (ov pos) = img pos
    rw [hz]
    show (addWeightedChannel (img pos).1 0, addWeightedChannel (img pos).2.1 0,
      addWeightedChannel (img pos).2.2 0) = img pos
    rw [hzero _ h1, hzero _ h2, hzero _ h3]
    rfl
  · intro img ov pos hv
    obtain ⟨h1, h2, h3⟩ := hv
    exact ⟨hmono _ _ h1, hmono _ _ h2, hmono _ _ h3⟩

/-- Witness for C7: blending an all-zero overlay over the constant camera
frame (10,20,30) changes nothing, and the blend never darkens a pixel. -/
theorem c7_witness :
    inverse_warp_image camFrame zeroFrame (0, 0) = camFrame (0, 0) ∧
    pixLE (camFrame (0, 0)) (inverse_warp_image camFrame zeroFrame (0, 0)) := by
  have hv : validPix (camFrame (0, 0)) := by
    refine ⟨?_, ?_, ?_⟩ <;> norm_num [camFrame]
  exact ⟨c7_additive_blend.2.2.2.1 camFrame zeroFrame (0, 0) hv rfl,
         c7_additive_blend.2.2.2.2 camFrame zeroFrame (0, 0) hv⟩

/-- The claim is right and the code wrong (claim C8): on a failed capture
the flight_time.py loop still warps, detects and displays (it never reads
the success flag), logs nothing and does not terminate; and the get_map.py
loop draws the corner circles — and with four points collected also saves
and warps — on the missing frame before its failure check logs and
breaks. -/
theorem c8_capture_failure_processed :
    flight_time_iteration false =
      { warpApplied := true, detectionApplied := true, displayed := true,
        loggedFailure := false, terminated := false } ∧
    get_map_iteration false 4 =
      [MapEvent.savePoints, MapEvent.warpFrame, MapEvent.showWarped,
       MapEvent.drawCircles, MapEvent.logFailure, MapEvent.breakLoop] ∧
    get_map_iteration false 0 =
      [MapEvent.drawCircles, MapEvent.logFailure, MapEvent.breakLoop] :=
  ⟨rfl, rfl, rfl⟩

/-- Counterexample to C9 as stated: the points are not persisted once —
two consecutive loop iterations with the click counter at four each save
the points file again. -/
theorem c9_counterexample :
    (get_map_iteration true 4 ++ get_map_iteration true 4).count MapEvent.savePoints = 2 := by
  decide

/-- Claim C9 (amended): the mouse handler accumulates exactly four points,
a click beyond the fourth fails with an out-of-bounds write that leaves
the stored array and counter unchanged, and the collected points are
persisted on every main-loop iteration while the counter equals four
(hence repeatedly, starting with the first frame after the fourth click),
not exactly once. -/
theorem c9_amended_save_every_frame :
    (∀ (x y : ℤ) (c : ℕ) (pts : Fin 4 → ℤ × ℤ), 4 ≤ c →
      mousePoints true x y c pts = none) ∧
    (∀ (x y : ℤ) (c : ℕ) (pts : Fin 4 → ℤ × ℤ) (h : c < 4),
      mousePoints true x y c pts = some (c + 1, Function.update pts ⟨c, h⟩ (x, y))) ∧
    (∀ (s : Bool) (c : ℕ), MapEvent.savePoints ∈ get_map_iteration s c ↔ c = 4) := by
  refine ⟨fun x y c pts hc => ?_, fun x y c pts h => ?_, fun s c => ?_⟩
  · simp only [mousePoints, if_true]
    rw [dif_neg (by omega)]
  · simp only [mousePoints, if_true]
    rw [dif_pos h]
  · by_cases hc : c = 4
    · subst hc
      cases s <;> simp [get_map_iteration]
    · have hb : (c == 4) = false := by simpa using hc
      cases s <;> simp [get_map_iteration, hb, hc]

/-- Witness for C9 (amended): a fifth click at counter 4 is rejected, the
fourth click stores its point and advances the counter to 4, and the loop
iteration at counter 4 saves the points. -/
theorem c9_witness :
    mousePoints true 7 8 4 pts0 = none ∧
    mousePoints true 7 8 3 pts0 =
      some (4, Function.update pts0 ⟨3, by decide⟩ (7, 8)) ∧
    MapEvent.savePoints ∈ get_map_iteration true 4 :=
  ⟨c9_amended_save_every_frame.1 7 8 4 pts0 (by decide),
   c9_amended_save_every_frame.2.1 7 8 3 pts0 (by decide),
   (c9_amended_save_every_frame.2.2 true 4).mpr rfl⟩

end InteractiveMaps
